import Mathlib

/-!
Verification of the School-Management-System backend's ledger core.

The definitions below are a shallow embedding of the repository's code:
  * `src/models/Invoice.js`   — invoice schema, `recordPayment`, `cancel`,
    the two `pre('save')` hooks and the schema validators (`min: 0`);
  * `src/models/Payment.js`   — `generatePaymentNumber`;
  * `src/models/User.js`      — the `Enrollment` schema, its partial unique
    index on active rows, `transferTo`, and the `pre('save')` hooks;
  * `src/models/Attendence.js` — the attendance schema, its unique
    `(studentId, date)` index, and `markClassAttendance` (bulk upsert);
  * `src/services/attendanceService.js` — `markClassAttendance` (service
    level validation) and `updateAttendance`.

Object ids are modelled as `Nat`, money as `Int`, timestamps as `Nat`
(milliseconds).  A Mongoose `save` is modelled as: run the schema
validators, then the user `pre('save')` hooks in registration order, then
persist.  `bulkWrite` bypasses validators and hooks, as in Mongoose.
Fallible operations return `Except String _`; operations that may leave
writes behind even when they fail return the resulting store next to the
outcome.
-/

/-- Invoice `status` enum (`Invoice.js`, field `status`). -/
inductive InvoiceStatus where
  | unpaid
  | partiallyPaid
  | paid
  | overdue
  | cancelled
  deriving DecidableEq, Repr

/-- Payment `paymentMethod` enum (`Payment.js`). -/
inductive PaymentMethod where
  | cash
  | bankTransfer
  | creditCard
  | debitCard
  | mobileMoney
  | check
  deriving DecidableEq, Repr

/-- The invoice document (`Invoice.js`).  `invId` stands for the Mongo
`_id`; `amount` is the principal; `amountPaid` and `balance` are the stored
derived fields. -/
structure Invoice where
  invId : Nat
  studentId : Nat
  schoolId : Nat
  invoiceNumber : String
  amount : Int
  amountPaid : Int
  balance : Int
  status : InvoiceStatus
  dueDate : Nat
  paidDate : Option Nat
  deriving DecidableEq, Repr

/-- The data `recordPayment` receives next to the amount
(`paymentData.paymentMethod / reference / notes`). -/
structure PaymentData where
  paymentMethod : PaymentMethod
  reference : Option String
  notes : Option String
  deriving DecidableEq, Repr

/-- The payment document `Payment.create` builds inside `recordPayment`
(`Invoice.js` lines 184-191). -/
structure PaymentDoc where
  invoiceId : Nat
  studentId : Nat
  amount : Int
  paymentMethod : PaymentMethod
  reference : Option String
  notes : Option String
  deriving DecidableEq, Repr

/-- The `isOverdue` virtual (`Invoice.js` lines 163-167):
`status !== 'paid' && status !== 'cancelled' && new Date() > dueDate`. -/
def invoiceIsOverdue (now : Nat) (inv : Invoice) : Bool :=
  inv.status != .paid && inv.status != .cancelled && decide (inv.dueDate < now)

/-- `invoice.save()`: schema validators (`amount` and `amountPaid` carry
`min: 0`), then the two `pre('save')` hooks of `Invoice.js` in order:
reclassify a past-due `unpaid` invoice as `overdue` (lines 254-259), then
recompute `balance = amount - amountPaid` (lines 262-265). -/
def invoiceSave (now : Nat) (inv : Invoice) : Except String Invoice :=
  if inv.amount < 0 then
    .error "ValidationError: amount is below minimum"
  else if inv.amountPaid < 0 then
    .error "ValidationError: amountPaid is below minimum"
  else
    let i1 := if invoiceIsOverdue now inv && inv.status == .unpaid then
        { inv with status := .overdue }
      else inv
    .ok { i1 with balance := i1.amount - i1.amountPaid }

/-- `invoiceSchema.methods.recordPayment` (`Invoice.js` lines 174-206):
reject `paid` and `cancelled` invoices, create the payment document, add
the amount to `amountPaid`, recompute `balance`, move the status
(`balance <= 0` stamps `paid` with `paidDate`, else `amountPaid > 0` gives
`partially_paid`), then `save`. -/
def recordPayment (now : Nat) (inv : Invoice) (paymentAmount : Int)
    (paymentData : PaymentData) : Except String (Invoice × PaymentDoc) :=
  if inv.status == .paid then
    .error "Invoice is already paid"
  else if inv.status == .cancelled then
    .error "Cannot pay cancelled invoice"
  else
    let payment : PaymentDoc :=
      { invoiceId := inv.invId
        studentId := inv.studentId
        amount := paymentAmount
        paymentMethod := paymentData.paymentMethod
        reference := paymentData.reference
        notes := paymentData.notes }
    let i1 := { inv with amountPaid := inv.amountPaid + paymentAmount }
    let i2 := { i1 with balance := i1.amount - i1.amountPaid }
    let i3 :=
      if i2.balance ≤ 0 then
        { i2 with status := .paid, paidDate := some now }
      else if i2.amountPaid > 0 then
        { i2 with status := .partiallyPaid }
      else i2
    (invoiceSave now i3).map (fun j => (j, payment))

/-- `invoiceSchema.methods.cancel` (`Invoice.js` lines 209-215). -/
def cancelInvoice (now : Nat) (inv : Invoice) : Except String Invoice :=
  if inv.amountPaid > 0 then
    .error "Cannot cancel invoice with payments"
  else
    invoiceSave now { inv with status := .cancelled }

/-- One mutation of an invoice, each carrying the wall-clock time at which
it runs: a payment application, a cancellation, or a bare save. -/
inductive InvoiceOp where
  | pay (now : Nat) (amt : Int) (paymentData : PaymentData)
  | cancel (now : Nat)
  | save (now : Nat)
  deriving DecidableEq, Repr

/-- Apply one invoice mutation. -/
def applyInvoiceOp (inv : Invoice) : InvoiceOp → Except String Invoice
  | .pay now amt paymentData => (recordPayment now inv amt paymentData).map Prod.fst
  | .cancel now => cancelInvoice now inv
  | .save now => invoiceSave now inv

/-- Apply a sequence of invoice mutations, stopping at the first failure. -/
def runInvoiceOps (inv : Invoice) : List InvoiceOp → Except String Invoice
  | [] => .ok inv
  | op :: ops => (applyInvoiceOp inv op).bind (fun j => runInvoiceOps j ops)


/-! ### Facts about invoice saves -/

lemma except_map_fst_pair (r : Except String Invoice) (p : PaymentDoc) :
    Except.map Prod.fst (Except.map (fun x => (x, p)) r) = r := by
  cases r <;> rfl

lemma invoiceSave_ok_invariant (now : Nat) (i j : Invoice)
    (h : invoiceSave now i = .ok j) :
    j.balance = j.amount - j.amountPaid ∧ 0 ≤ j.amountPaid := by
  unfold invoiceSave at h
  split_ifs at h with h1 h2 hc
  · simp only [Except.ok.injEq] at h
    subst h
    refine ⟨rfl, ?_⟩
    show 0 ≤ i.amountPaid
    omega
  · simp only [Except.ok.injEq] at h
    subst h
    refine ⟨rfl, ?_⟩
    show 0 ≤ i.amountPaid
    omega

lemma applyInvoiceOp_ok_of (inv j : Invoice) (op : InvoiceOp)
    (h : applyInvoiceOp inv op = .ok j) :
    ∃ now i, invoiceSave now i = .ok j := by
  cases op with
  | pay now amt paymentData =>
    simp only [applyInvoiceOp, recordPayment] at h
    split_ifs at h with h1 h2
    · simp [Except.map] at h
    · simp [Except.map] at h
    all_goals rw [except_map_fst_pair] at h
    all_goals exact ⟨now, _, h⟩
  | cancel now =>
    simp only [applyInvoiceOp, cancelInvoice] at h
    split_ifs at h with h1
    exact ⟨now, _, h⟩
  | save now =>
    simp only [applyInvoiceOp] at h
    exact ⟨now, inv, h⟩

/-- C1.  For every invoice at rest after any nonempty sequence of
mutations (payment application, cancellation, save), the stored derived
fields satisfy `balance = amount - amountPaid` and `amountPaid ≥ 0`. -/
theorem c1_invoice_rest_invariant (inv : Invoice) (ops : List InvoiceOp)
    (inv2 : Invoice) (hne : ops ≠ []) (h : runInvoiceOps inv ops = .ok inv2) :
    inv2.balance = inv2.amount - inv2.amountPaid ∧ 0 ≤ inv2.amountPaid := by
  induction ops generalizing inv with
  | nil => exact absurd rfl hne
  | cons op tl ih =>
    rw [runInvoiceOps] at h
    cases hop : applyInvoiceOp inv op with
    | error e => rw [hop] at h; simp [Except.bind] at h
    | ok k =>
      rw [hop] at h
      simp only [Except.bind] at h
      cases tl with
      | nil =>
        rw [runInvoiceOps] at h
        simp only [Except.ok.injEq] at h
        rw [← h]
        obtain ⟨n2, i, hs⟩ := applyInvoiceOp_ok_of inv k op hop
        exact invoiceSave_ok_invariant n2 i k hs
      | cons op2 tl2 =>
        exact ih k (by simp) h

/-- Payment data used by the concrete scenarios. -/
def pdCash : PaymentData := { paymentMethod := .cash, reference := none, notes := none }

/-- The scenario invoice: principal 1000, fresh and unpaid, due at time 100. -/
def invoiceThousand : Invoice :=
  { invId := 7, studentId := 1, schoolId := 1, invoiceNumber := "INV-2025-00001",
    amount := 1000, amountPaid := 0, balance := 1000, status := .unpaid,
    dueDate := 100, paidDate := none }

/-- Stored state of `invoiceThousand` after paying 400 at time 1. -/
def invoiceAfter400 : Invoice :=
  { invoiceThousand with amountPaid := 400, balance := 600, status := .partiallyPaid }

/-- C1 witness: the invariant, evaluated on the invoice stored after a
concrete payment of 400 against a principal of 1000. -/
theorem c1_invoice_rest_invariant_witness :
    invoiceAfter400.balance = invoiceAfter400.amount - invoiceAfter400.amountPaid ∧
      0 ≤ invoiceAfter400.amountPaid :=
  c1_invoice_rest_invariant invoiceThousand [.pay 1 400 pdCash] invoiceAfter400
    (by simp) (by rfl)

/-! ### Behaviour of `recordPayment` -/

/-- Enrollment `status` enum (`User.js`, Enrollment schema). -/
inductive EnrollmentStatus where
  | active
  | completed
  | transferred
  | withdrawn
  | suspended
  deriving DecidableEq, Repr

/-- The enrollment document.  `enrId` stands for the Mongo `_id`. -/
structure Enrollment where
  enrId : Nat
  studentId : Nat
  classId : Nat
  academicYear : String
  enrollmentDate : Nat
  status : EnrollmentStatus
  statusChangeDate : Option Nat
  statusChangeReason : Option String
  transferredToClassId : Option Nat
  deriving DecidableEq, Repr

/-- The class document (`Class.js`), reduced to the fields the embedded
operations read. -/
structure ClassDoc where
  classId : Nat
  schoolId : Nat
  name : String
  academicYear : String
  isActive : Bool
  deriving DecidableEq, Repr

/-! ### Presence ledger: the Attendance model (`Attendence.js`) -/

/-- Attendance `status` enum. -/
inductive AttendanceStatus where
  | present
  | absent
  | late
  | excused
  | sick
  deriving DecidableEq, Repr

/-- A stored attendance document.  `attId` stands for the Mongo `_id`;
`date` is stored normalized to the start of its day. -/
structure AttRec where
  attId : Nat
  studentId : Nat
  classId : Nat
  date : Nat
  status : AttendanceStatus
  arrivalTime : Option String
  notes : String
  recordedBy : Nat
  academicYear : String
  deriving DecidableEq, Repr

/-- One element of the `attendanceRecords` input array of
`markClassAttendance`. -/
structure AttInput where
  studentId : Nat
  status : AttendanceStatus
  notes : Option String
  arrivalTime : Option String
  deriving DecidableEq, Repr

/-- The storage state the membership and presence operations run against:
the `classes`, `enrollments` and `attendances` collections, with counters
standing for Mongo's fresh `_id` generation. -/
structure SchoolDB where
  classes : List ClassDoc
  enrollments : List Enrollment
  atts : List AttRec
  nextEnrId : Nat
  nextAttId : Nat
  deriving DecidableEq, Repr

/-- `Class.findById` (first document with the `_id`). -/
def findClass (classes : List ClassDoc) (cid : Nat) : Option ClassDoc :=
  classes.find? (fun c => c.classId == cid)

/-- One document matching the partial unique index key
`{studentId, classId, academicYear, status}` restricted to
`status: 'active'` (`User.js` lines 409-416). -/
def matchesActive (s c : Nat) (y : String) (e : Enrollment) : Bool :=
  e.studentId == s && e.classId == c && e.academicYear == y &&
    e.status == .active

/-- Whether the partial unique index already holds an active row for the
key — the situation in which Mongo rejects a new active row. -/
def activeEnrollmentExists (es : List Enrollment) (s c : Nat) (y : String) : Bool :=
  es.any (matchesActive s c y)

/-- The invariant the partial unique index enforces: at most one `active`
enrollment per (student, class, academicYear). -/
def AtMostOneActive (es : List Enrollment) : Prop :=
  ∀ s c y, es.countP (matchesActive s c y) ≤ 1

/-- `Enrollment.create` (the enroll operation): the `pre('save')` hooks of
`User.js` lines 514-542 (class must exist, academic year auto-filled from
the class then required to match, status-change date stamped), then the
insert, rejected by the storage layer when the partial unique index
already holds an active row for the same (student, class, year). -/
def insertEnrollment (db : SchoolDB) (e : Enrollment) (now : Nat) :
    SchoolDB × Except String Enrollment :=
  match findClass db.classes e.classId with
  | none => (db, .error "Class not found")
  | some c =>
    let e1 := if e.academicYear = "" then { e with academicYear := c.academicYear } else e
    if e1.academicYear ≠ c.academicYear then
      (db, .error "Academic year mismatch")
    else
      let e2 := { e1 with
        enrId := db.nextEnrId,
        statusChangeDate := if e1.statusChangeDate = none then some now
          else e1.statusChangeDate }
      if e2.status == .active &&
          activeEnrollmentExists db.enrollments e2.studentId e2.classId
            e2.academicYear then
        (db, .error "E11000 duplicate key error (active enrollment)")
      else
        ({ db with
            enrollments := db.enrollments ++ [e2],
            nextEnrId := db.nextEnrId + 1 },
          .ok e2)

/-- `enrollmentSchema.methods.transferTo` (`User.js` lines 433-456): mark
the source enrollment `transferred` (recording target class, date and
reason) and save it, then look the target class up — failing only now if
it does not exist — and create the successor `active` enrollment on it,
subject to the partial unique index. -/
def transferTo (db : SchoolDB) (now : Nat) (membershipId : Nat)
    (newClassId : Nat) (reason : String) : SchoolDB × Except String Enrollment :=
  match db.enrollments.find? (fun e => e.enrId == membershipId) with
  | none => (db, .error "Enrollment not found")
  | some e =>
    let e1 := { e with
      status := .transferred,
      transferredToClassId := some newClassId,
      statusChangeDate := some now,
      statusChangeReason := some reason }
    let db1 := { db with
      enrollments := db.enrollments.map
        (fun x => if x.enrId == membershipId then e1 else x) }
    match findClass db1.classes newClassId with
    | none => (db1, .error "Target class not found")
    | some c =>
      let newE : Enrollment :=
        { enrId := db1.nextEnrId,
          studentId := e.studentId,
          classId := newClassId,
          academicYear := c.academicYear,
          enrollmentDate := now,
          status := .active,
          statusChangeDate := some now,
          statusChangeReason := none,
          transferredToClassId := none }
      if activeEnrollmentExists db1.enrollments newE.studentId newE.classId
          newE.academicYear then
        (db1, .error "E11000 duplicate key error (active enrollment)")
      else
        ({ db1 with
            enrollments := db1.enrollments ++ [newE],
            nextEnrId := db1.nextEnrId + 1 },
          .ok newE)

/-! ### The partial unique index on active enrollments -/

lemma matchesActive_iff {s c : Nat} {y : String} {e : Enrollment} :
    matchesActive s c y e = true ↔
      e.studentId = s ∧ e.classId = c ∧ e.academicYear = y ∧
        e.status = .active := by
  simp [matchesActive, Bool.and_eq_true, beq_iff_eq, and_assoc]

lemma countP_zero_of_not_exists (es : List Enrollment) (s c : Nat) (y : String)
    (h : activeEnrollmentExists es s c y = false) :
    es.countP (matchesActive s c y) = 0 := by
  rw [List.countP_eq_zero]
  intro a ha hm
  simp only [activeEnrollmentExists, List.any_eq_false] at h
  exact h a ha hm

lemma atMostOne_append_single (es : List Enrollment) (x : Enrollment)
    (h : AtMostOneActive es)
    (hx : ∀ s c y, matchesActive s c y x = true →
      es.countP (matchesActive s c y) = 0) :
    AtMostOneActive (es ++ [x]) := by
  intro s c y
  rw [List.countP_append]
  by_cases hm : matchesActive s c y x = true
  · rw [hx s c y hm]
    simp [List.countP_cons, hm]
  · have hz : List.countP (matchesActive s c y) [x] = 0 := by
      simp only [List.countP_cons, List.countP_nil]
      simp [hm]
    rw [hz]
    simpa using h s c y

lemma transferred_not_matches (s c : Nat) (y : String) (e : Enrollment)
    (h : e.status = .transferred) : matchesActive s c y e = false := by
  simp [matchesActive, h]

lemma atMostOne_markTransferred (es : List Enrollment) (mid : Nat)
    (e1 : Enrollment) (h1 : e1.status = .transferred)
    (h : AtMostOneActive es) :
    AtMostOneActive (es.map (fun x => if x.enrId == mid then e1 else x)) := by
  intro s c y
  rw [List.countP_map]
  refine le_trans (List.countP_mono_left ?_) (h s c y)
  intro x hx hpx
  by_cases hid : (x.enrId == mid) = true
  · exfalso
    simp only [Function.comp, hid, if_pos] at hpx
    rw [transferred_not_matches s c y _ h1] at hpx
    cases hpx
  · simpa [Function.comp, hid] using hpx

lemma insertEnrollment_enrollments (db : SchoolDB) (e : Enrollment) (now : Nat) :
    (insertEnrollment db e now).1.enrollments = db.enrollments ∨
    ∃ e2 : Enrollment,
      (insertEnrollment db e now).1.enrollments = db.enrollments ++ [e2] ∧
        ((e2.status == EnrollmentStatus.active) &&
          activeEnrollmentExists db.enrollments e2.studentId e2.classId
            e2.academicYear) = false := by
  unfold insertEnrollment
  cases hfind : findClass db.classes e.classId with
  | none => left; rfl
  | some c =>
    simp only
    split_ifs
    all_goals first
      | (left; rfl)
      | (right; exact ⟨_, rfl, Bool.eq_false_iff.mpr (by assumption)⟩)

lemma transferTo_enrollments (db : SchoolDB) (now mid ncid : Nat)
    (reason : String) :
    (transferTo db now mid ncid reason).1.enrollments = db.enrollments ∨
    ∃ e1 : Enrollment, e1.status = .transferred ∧
      ((transferTo db now mid ncid reason).1.enrollments =
          db.enrollments.map (fun x => if x.enrId == mid then e1 else x) ∨
        ∃ e2 : Enrollment,
          (transferTo db now mid ncid reason).1.enrollments =
            db.enrollments.map (fun x => if x.enrId == mid then e1 else x)
              ++ [e2] ∧
          activeEnrollmentExists
            (db.enrollments.map (fun x => if x.enrId == mid then e1 else x))
            e2.studentId e2.classId e2.academicYear = false) := by
  unfold transferTo
  cases hf : db.enrollments.find? (fun x => x.enrId == mid) with
  | none => left; rfl
  | some e =>
    simp only
    cases hfc : findClass db.classes ncid with
    | none =>
      right
      exact ⟨_, rfl, Or.inl rfl⟩
    | some c =>
      simp only
      split_ifs with hguard
      · right
        exact ⟨_, rfl, Or.inl rfl⟩
      · right
        refine ⟨_, rfl, Or.inr ⟨_, rfl, ?_⟩⟩
        exact Bool.eq_false_iff.mpr hguard

/-- C2.  At most one active Membership per (subject, group, period): an
enroll targeting a key that already holds an active enrollment is rejected
by the partial unique index with a duplicate-key (conflict) error and
writes nothing, and both `Enrollment.create` and `transferTo` preserve the
at-most-one-active invariant. -/
theorem c2_unique_active_membership :
    (∀ (db : SchoolDB) (e : Enrollment) (now : Nat) (c : ClassDoc),
        findClass db.classes e.classId = some c →
        e.academicYear = c.academicYear →
        e.status = .active →
        activeEnrollmentExists db.enrollments e.studentId e.classId
            e.academicYear = true →
        insertEnrollment db e now =
          (db, .error "E11000 duplicate key error (active enrollment)")) ∧
    (∀ (db : SchoolDB) (e : Enrollment) (now : Nat),
        AtMostOneActive db.enrollments →
        AtMostOneActive (insertEnrollment db e now).1.enrollments) ∧
    (∀ (db : SchoolDB) (now membershipId newClassId : Nat) (reason : String),
        AtMostOneActive db.enrollments →
        AtMostOneActive
          (transferTo db now membershipId newClassId reason).1.enrollments) := by
  refine ⟨?_, ?_, ?_⟩
  · intro db e now c hfind hyear hact hex
    have he1 : (if e.academicYear = "" then
        { e with academicYear := c.academicYear } else e) = e := by
      split_ifs with hb
      · rw [← hyear]
      · rfl
    simp only [insertEnrollment, hfind, he1]
    rw [if_neg (by simp [hyear])]
    simp [hact, hex]
  · intro db e now h
    rcases insertEnrollment_enrollments db e now with heq | ⟨e2, heq, hguard⟩
    · rw [heq]; exact h
    · rw [heq]
      refine atMostOne_append_single _ _ h ?_
      intro s cc y hm
      rw [matchesActive_iff] at hm
      obtain ⟨hs, hc, hy, hst⟩ := hm
      subst hs
      subst hc
      subst hy
      refine countP_zero_of_not_exists _ _ _ _ ?_
      cases hex : activeEnrollmentExists db.enrollments e2.studentId e2.classId
          e2.academicYear with
      | false => rfl
      | true =>
        rw [hst, hex] at hguard
        simp at hguard
  · intro db now membershipId newClassId reason h
    rcases transferTo_enrollments db now membershipId newClassId reason with
      heq | ⟨e1, he1, hrest⟩
    · rw [heq]; exact h
    · have hmap := atMostOne_markTransferred db.enrollments membershipId e1 he1 h
      rcases hrest with heq | ⟨e2, heq, hguard⟩
      · rw [heq]; exact hmap
      · rw [heq]
        refine atMostOne_append_single _ _ hmap ?_
        intro s cc y hm
        rw [matchesActive_iff] at hm
        obtain ⟨hs, hc, hy, _⟩ := hm
        subst hs
        subst hc
        subst hy
        exact countP_zero_of_not_exists _ _ _ _ hguard

/-! ### Concrete membership fixtures -/

/-- A class "Grade 1A" in school 1, period 2025. -/
def classA : ClassDoc :=
  { classId := 1, schoolId := 1, name := "Grade 1A", academicYear := "2025",
    isActive := true }

/-- A class "Grade 1B" in school 1, period 2025. -/
def classB : ClassDoc :=
  { classId := 2, schoolId := 1, name := "Grade 1B", academicYear := "2025",
    isActive := true }

/-- Student 10 actively enrolled in class 1 for 2025. -/
def enrActive : Enrollment :=
  { enrId := 1, studentId := 10, classId := 1, academicYear := "2025",
    enrollmentDate := 0, status := .active, statusChangeDate := none,
    statusChangeReason := none, transferredToClassId := none }

/-- The same membership already transferred away. -/
def enrTransferredSource : Enrollment :=
  { enrActive with
    status := .transferred, statusChangeDate := some 1,
    statusChangeReason := some "moved", transferredToClassId := some 2 }

/-- A store holding both classes and the one active membership. -/
def dbWithActive : SchoolDB :=
  { classes := [classA, classB], enrollments := [enrActive], atts := [],
    nextEnrId := 2, nextAttId := 0 }

/-- A store whose only membership is already `transferred`. -/
def dbWithTransferred : SchoolDB :=
  { dbWithActive with enrollments := [enrTransferredSource] }

/-- C2 witness: re-enrolling student 10 into class 1 for 2025 while the
active membership exists is rejected and writes nothing. -/
theorem c2_unique_active_membership_witness :
    insertEnrollment dbWithActive { enrActive with enrId := 0 } 5 =
      (dbWithActive, .error "E11000 duplicate key error (active enrollment)") :=
  c2_unique_active_membership.1 dbWithActive { enrActive with enrId := 0 } 5
    classA rfl rfl rfl rfl

/-! ### C5/C6: what `transferTo` actually does -/

/-- The successor membership `transferTo` creates in the C5 counterexample. -/
def c5NewEnr : Enrollment :=
  { enrId := 2, studentId := 10, classId := 2, academicYear := "2025",
    enrollmentDate := 5, status := .active, statusChangeDate := some 5,
    statusChangeReason := none, transferredToClassId := none }

/-- C5 counterexample: transferring the already-`transferred` membership 1
to class 2 does not fail with a state error — it succeeds and creates a
new active membership. -/
theorem c5_transfer_nonactive_counterexample :
    (transferTo dbWithTransferred 5 1 2 "again").2 = .ok c5NewEnr ∧
      c5NewEnr.status = .active ∧
      (transferTo dbWithTransferred 5 1 2 "again").1.enrollments.length = 2 ∧
      enrTransferredSource.status ≠ .active :=
  ⟨rfl, rfl, rfl, by decide⟩

/-- C5 (amended).  `transferTo` performs no source-status check: for a
source membership of any non-active status (for example an
already-`transferred` one), when the target class exists and the partial
unique index does not block the successor insert, the call succeeds — it
re-stamps the source as `transferred` (overwriting its transfer metadata)
and creates a new `active` membership; no `StateError` is raised. -/
theorem c5_transfer_ignores_source_status :
    ∀ (db : SchoolDB) (now mid ncid : Nat) (reason : String)
      (e : Enrollment) (c : ClassDoc),
      db.enrollments.find? (fun x => x.enrId == mid) = some e →
      e.status ≠ .active →
      findClass db.classes ncid = some c →
      activeEnrollmentExists
          (db.enrollments.map (fun x => if x.enrId = mid then
            { e with
              status := .transferred
              transferredToClassId := some ncid
              statusChangeDate := some now
              statusChangeReason := some reason }
            else x))
          e.studentId ncid c.academicYear = false →
      transferTo db now mid ncid reason =
        ({ db with
            enrollments :=
              (db.enrollments.map (fun x => if x.enrId == mid then
                { e with
                  status := .transferred
                  transferredToClassId := some ncid
                  statusChangeDate := some now
                  statusChangeReason := some reason }
                else x)) ++
              [{ enrId := db.nextEnrId, studentId := e.studentId,
                 classId := ncid, academicYear := c.academicYear,
                 enrollmentDate := now, status := .active,
                 statusChangeDate := some now, statusChangeReason := none,
                 transferredToClassId := none }],
            nextEnrId := db.nextEnrId + 1 },
          .ok { enrId := db.nextEnrId, studentId := e.studentId,
                classId := ncid, academicYear := c.academicYear,
                enrollmentDate := now, status := .active,
                statusChangeDate := some now, statusChangeReason := none,
                transferredToClassId := none }) := by
  intro db now mid ncid reason e c hf hnact hfc hguard
  simp only [transferTo, hf, hfc]
  simp [hguard]

/-- C5 witness: the amended statement evaluated on the concrete
already-transferred membership. -/
theorem c5_transfer_ignores_source_status_witness :
    transferTo dbWithTransferred 5 1 2 "again" =
      ({ dbWithTransferred with
          enrollments :=
            (dbWithTransferred.enrollments.map (fun x => if x.enrId == 1 then
              { enrTransferredSource with
                status := .transferred
                transferredToClassId := some 2
                statusChangeDate := some 5
                statusChangeReason := some "again" }
              else x)) ++
            [{ enrId := 2, studentId := 10,
               classId := 2, academicYear := "2025",
               enrollmentDate := 5, status := .active,
               statusChangeDate := some 5, statusChangeReason := none,
               transferredToClassId := none }],
          nextEnrId := 3 },
        .ok { enrId := 2, studentId := 10,
              classId := 2, academicYear := "2025",
              enrollmentDate := 5, status := .active,
              statusChangeDate := some 5, statusChangeReason := none,
              transferredToClassId := none }) :=
  c5_transfer_ignores_source_status dbWithTransferred 5 1 2 "again"
    enrTransferredSource classB rfl (by decide) rfl rfl

/-- The source membership as `transferTo` leaves it when the target class
lookup fails after the source was already saved. -/
def c6SourceAfter : Enrollment :=
  { enrActive with
    status := .transferred, statusChangeDate := some 5,
    statusChangeReason := some "mid-year", transferredToClassId := some 99 }

/-- C6 counterexample: transferring active membership 1 to the nonexistent
class 99 throws only after the source was durably marked `transferred`;
the store ends with one `transferred` membership, zero `active`
memberships, and no successor — the two writes are not one logical unit
and the "exactly one new active membership" guarantee fails. -/
theorem c6_transfer_atomicity_counterexample :
    transferTo dbWithActive 5 1 99 "mid-year" =
      ({ dbWithActive with enrollments := [c6SourceAfter] },
        .error "Target class not found") ∧
      c6SourceAfter.status = .transferred ∧
      (transferTo dbWithActive 5 1 99 "mid-year").1.enrollments.countP
          (fun e => e.status == .active) = 0 :=
  ⟨rfl, rfl, rfl⟩

/-- C6 (amended).  When the whole call goes through, `transferTo` leaves
the source `transferred` with reason and timestamp recorded and creates
exactly one successor: a new `active` membership on the target class
carrying that class's academic year.  But the source's forward link
(`transferredToClassId`) references the target class, not the successor
membership, and the two writes are not one logical unit: the source is
saved first, so when the target class does not exist the operation fails
with the source already persisted as `transferred` and no successor
created; nothing is rolled back. -/
theorem c6_transfer_two_writes :
    (∀ (db : SchoolDB) (now mid ncid : Nat) (reason : String)
        (e : Enrollment) (c : ClassDoc),
        db.enrollments.find? (fun x => x.enrId == mid) = some e →
        findClass db.classes ncid = some c →
        activeEnrollmentExists
            (db.enrollments.map (fun x => if x.enrId = mid then
              { e with
                status := .transferred
                transferredToClassId := some ncid
                statusChangeDate := some now
                statusChangeReason := some reason }
              else x))
            e.studentId ncid c.academicYear = false →
        transferTo db now mid ncid reason =
          ({ db with
              enrollments :=
                (db.enrollments.map (fun x => if x.enrId = mid then
                  { e with
                    status := .transferred
                    transferredToClassId := some ncid
                    statusChangeDate := some now
                    statusChangeReason := some reason }
                  else x)) ++
                [{ enrId := db.nextEnrId, studentId := e.studentId,
                   classId := ncid, academicYear := c.academicYear,
                   enrollmentDate := now, status := .active,
                   statusChangeDate := some now, statusChangeReason := none,
                   transferredToClassId := none }],
              nextEnrId := db.nextEnrId + 1 },
            .ok { enrId := db.nextEnrId, studentId := e.studentId,
                  classId := ncid, academicYear := c.academicYear,
                  enrollmentDate := now, status := .active,
                  statusChangeDate := some now, statusChangeReason := none,
                  transferredToClassId := none })) ∧
    (∀ (db : SchoolDB) (now mid ncid : Nat) (reason : String)
        (e : Enrollment),
        db.enrollments.find? (fun x => x.enrId == mid) = some e →
        findClass db.classes ncid = none →
        transferTo db now mid ncid reason =
          ({ db with
              enrollments :=
                db.enrollments.map (fun x => if x.enrId = mid then
                  { e with
                    status := .transferred
                    transferredToClassId := some ncid
                    statusChangeDate := some now
                    statusChangeReason := some reason }
                  else x) },
            .error "Target class not found")) := by
  constructor
  · intro db now mid ncid reason e c hf hfc hguard
    simp only [transferTo, hf, hfc]
    simp [hguard]
  · intro db now mid ncid reason e hf hfc
    simp only [transferTo, hf, hfc]
    simp

/-- C6 witness: the success clause evaluated on the concrete store — the
active membership in class 1 transferred to the existing class 2. -/
theorem c6_transfer_two_writes_witness :
    transferTo dbWithActive 5 1 2 "mid-year" =
      ({ dbWithActive with
          enrollments :=
            (dbWithActive.enrollments.map (fun x => if x.enrId = 1 then
              { enrActive with
                status := .transferred
                transferredToClassId := some 2
                statusChangeDate := some 5
                statusChangeReason := some "mid-year" }
              else x)) ++
            [{ enrId := 2, studentId := 10, classId := 2,
               academicYear := "2025", enrollmentDate := 5, status := .active,
               statusChangeDate := some 5, statusChangeReason := none,
               transferredToClassId := none }],
          nextEnrId := 3 },
        .ok { enrId := 2, studentId := 10, classId := 2,
              academicYear := "2025", enrollmentDate := 5, status := .active,
              statusChangeDate := some 5, statusChangeReason := none,
              transferredToClassId := none }) :=
  c6_transfer_two_writes.1 dbWithActive 5 1 2 "mid-year" enrActive classB
    rfl rfl rfl

/-! ### Financial ledger: payment numbering (`Payment.js`) -/

/-- Whether `s` starts with `pfx` (the `^pfx` regex of the scan), computed
structurally over the characters. -/
def strStartsWith (s pfx : String) : Bool :=
  pfx.data.isPrefixOf s.data

/-- `'-'`-splitting of a character list (JavaScript `split('-')`). -/
def splitDashChars : List Char → List (List Char)
  | [] => [[]]
  | c :: rest =>
    match splitDashChars rest with
    | [] => if c = '-' then [[], []] else [[c]]
    | g :: gs => if c = '-' then [] :: g :: gs else (c :: g) :: gs

/-- JavaScript `split('-')` on a string. -/
def splitOnDash (s : String) : List String :=
  (splitDashChars s.data).map String.mk

/-- JavaScript `parseInt`: the longest leading digit run, `NaN` (`none`)
when there is none. -/
def parseIntStr (s : String) : Option Nat :=
  let ds := s.data.takeWhile (fun c => c.isDigit)
  match ds with
  | [] => none
  | _ => some (ds.foldl (fun n c => n * 10 + (c.toNat - 48)) 0)

/-- A stored payment as the numbering scan sees it.  `schoolId` is the
tenant the payment belongs to (via its student's school); it is context
only — the payment schema itself stores no tenant field and
`generatePaymentNumber` never reads it. -/
structure PaymentRow where
  paymentNumber : String
  schoolId : Nat
  deriving DecidableEq, Repr

/-- The running maximum of the `sort('-paymentNumber')` scan. -/
def maxByPaymentNumber (acc : Option PaymentRow) (p : PaymentRow) :
    Option PaymentRow :=
  match acc with
  | none => some p
  | some q => if q.paymentNumber < p.paymentNumber then some p else some q

/-- `findOne({paymentNumber: /^pfx/}).sort('-paymentNumber')`: the row
with the lexicographically greatest payment number among those that start
with the prefix. -/
def lastByPaymentNumber (rows : List PaymentRow) (pfx : String) :
    Option PaymentRow :=
  (rows.filter (fun p => strStartsWith p.paymentNumber pfx)).foldl
    maxByPaymentNumber none

/-- `String(n).padStart(5, '0')`. -/
def pad5 (n : Nat) : String :=
  let s := toString n
  String.mk (List.replicate (5 - s.length) '0') ++ s

/-- `paymentSchema.statics.generatePaymentNumber` (`Payment.js` lines
114-129): scan for the greatest `PAY-<year>-…` number — across ALL
payments, with no tenant filter — parse its third dash-separated field,
and return the incremented, zero-padded successor.  (A failed parse is
JavaScript `parseInt` giving `NaN`; `String(NaN).padStart(5,'0')` is
`"00NaN"`.) -/
def generatePaymentNumber (rows : List PaymentRow) (year : Nat) : String :=
  let pfx := "PAY-" ++ toString year ++ "-"
  match lastByPaymentNumber rows pfx with
  | none => pfx ++ pad5 1
  | some p =>
    match parseIntStr ((splitOnDash p.paymentNumber).getD 2 "") with
    | some lastNumber => pfx ++ pad5 (lastNumber + 1)
    | none => pfx ++ "00NaN"

/-- The claim's reading of the numbering, following the spec's words
("the next payment number is computed per tenant (per year)") and
`generateInvoiceNumber`, which does filter by `schoolId`: the same scan
restricted to the acting tenant's payments. -/
def generatePaymentNumberTenantScoped (rows : List PaymentRow)
    (schoolId : Nat) (year : Nat) : String :=
  generatePaymentNumber (rows.filter (fun p => p.schoolId == schoolId)) year

/-- A store holding a single payment, recorded by tenant 1. -/
def rowsTenantOne : List PaymentRow :=
  [{ paymentNumber := "PAY-2025-00001", schoolId := 1 }]

/-- C9 counterexample: with one payment recorded in tenant 1, the number
generated for tenant 2's first payment is "PAY-2025-00002" — the scan sees
tenant 1's payment — while a tenant-scoped sequence would give tenant 2
"PAY-2025-00001". -/
theorem c9_tenant_scope_counterexample :
    generatePaymentNumber rowsTenantOne 2025 = "PAY-2025-00002" ∧
      generatePaymentNumberTenantScoped rowsTenantOne 2 2025 = "PAY-2025-00001" ∧
      generatePaymentNumber rowsTenantOne 2025 ≠
        generatePaymentNumberTenantScoped rowsTenantOne 2 2025 := by
  refine ⟨by decide, by decide, by decide⟩

lemma maxByPaymentNumber_map (g : PaymentRow → PaymentRow)
    (hg : ∀ p, (g p).paymentNumber = p.paymentNumber)
    (acc : Option PaymentRow) (p : PaymentRow) :
    maxByPaymentNumber (acc.map g) (g p) =
      (maxByPaymentNumber acc p).map g := by
  cases acc with
  | none => rfl
  | some q =>
    simp only [Option.map, maxByPaymentNumber, hg]
    split_ifs <;> rfl

lemma foldl_maxByPaymentNumber_map (g : PaymentRow → PaymentRow)
    (hg : ∀ p, (g p).paymentNumber = p.paymentNumber) :
    ∀ (l : List PaymentRow) (acc : Option PaymentRow),
      (l.map g).foldl maxByPaymentNumber (acc.map g) =
        ((l.foldl maxByPaymentNumber acc).map g) := by
  intro l
  induction l with
  | nil => intro acc; rfl
  | cons p l ih =>
    intro acc
    rw [List.map_cons, List.foldl_cons, List.foldl_cons,
      maxByPaymentNumber_map g hg, ih]

lemma lastByPaymentNumber_map (rows : List PaymentRow) (pfx : String)
    (g : PaymentRow → PaymentRow)
    (hg : ∀ p, (g p).paymentNumber = p.paymentNumber) :
    lastByPaymentNumber (rows.map g) pfx =
      (lastByPaymentNumber rows pfx).map g := by
  unfold lastByPaymentNumber
  rw [List.filter_map]
  have hpred : ((fun p => strStartsWith p.paymentNumber pfx) ∘ g) =
      (fun p => strStartsWith p.paymentNumber pfx) := by
    funext p
    simp [Function.comp, hg p]
  rw [hpred]
  exact foldl_maxByPaymentNumber_map g hg _ none

/-- C9 (amended).  Payment numbers are a single per-year sequence shared
by every tenant: `generatePaymentNumber` never reads any tenant
attribution — its result is invariant under arbitrarily relabelling every
payment's tenant — so a payment recorded in one tenant advances the number
the next payment in any other tenant receives (concretely, after tenant
1's `PAY-2025-00001`, tenant 2's first payment is numbered
`PAY-2025-00002`, not `PAY-2025-00001`).  This is unlike
`generateInvoiceNumber`, which scopes its scan by `schoolId`. -/
theorem c9_payment_numbering_global :
    (∀ (rows : List PaymentRow) (year : Nat) (f : PaymentRow → Nat),
        generatePaymentNumber
            (rows.map (fun p => { p with schoolId := f p })) year =
          generatePaymentNumber rows year) ∧
    generatePaymentNumber rowsTenantOne 2025 = "PAY-2025-00002" ∧
    generatePaymentNumber (rowsTenantOne.filter (fun p => p.schoolId == 2))
        2025 = "PAY-2025-00001" := by
  refine ⟨?_, by decide, by decide⟩
  intro rows year f
  simp only [generatePaymentNumber]
  rw [lastByPaymentNumber_map rows ("PAY-" ++ toString year ++ "-")
    (fun p => { p with schoolId := f p }) (fun p => rfl)]
  cases lastByPaymentNumber rows ("PAY-" ++ toString year ++ "-") with
  | none => rfl
  | some p => rfl

/-! ### Presence ledger operations -/

/-- `setHours(0,0,0,0)`: the timestamp truncated to the start of its day. -/
def normalizeDate (t : Nat) : Nat := t - t % 86400000

/-- JavaScript `s || null` on an optional string (empty string is falsy). -/
def jsOrNull (o : Option String) : Option String :=
  match o with
  | some s => if s = "" then none else some s
  | none => none

/-- The `$set` part of one `markClassAttendance` bulk operation
(`Attendence.js` lines 139-148): overwrite class, status, notes, recorder,
academic year and arrival time, keeping the filter key (student, date) and
the document identity. -/
def setAttFields (classId : Nat) (year : String) (recordedBy : Nat)
    (r : AttInput) (a : AttRec) : AttRec :=
  { a with
    classId := classId
    status := r.status
    notes := r.notes.getD ""
    recordedBy := recordedBy
    academicYear := year
    arrivalTime := jsOrNull r.arrivalTime }

/-- One `updateOne … upsert: true` against the attendance store: update
the first document matching `{studentId, date}`, or append a fresh one
(with a fresh `_id`) built from the filter key plus the `$set` fields. -/
def upsertOne (classId : Nat) (year : String) (recordedBy : Nat) (nd : Nat)
    (recs : List AttRec) (nextId : Nat) (r : AttInput) : List AttRec × Nat :=
  match recs with
  | [] =>
    ([setAttFields classId year recordedBy r
        { attId := nextId, studentId := r.studentId, classId := classId,
          date := nd, status := r.status, arrivalTime := none, notes := "",
          recordedBy := recordedBy, academicYear := year }],
      nextId + 1)
  | a :: rest =>
    if a.studentId == r.studentId && a.date == nd then
      (setAttFields classId year recordedBy r a :: rest, nextId)
    else
      let q := upsertOne classId year recordedBy nd rest nextId r
      (a :: q.1, q.2)

/-- The ordered `bulkWrite` of `markClassAttendance`: the upserts applied
in input order. -/
def bulkUpsert (classId : Nat) (year : String) (recordedBy : Nat) (nd : Nat) :
    List AttRec × Nat → List AttInput → List AttRec × Nat
  | q, [] => q
  | q, r :: rs =>
    bulkUpsert classId year recordedBy nd
      (upsertOne classId year recordedBy nd q.1 q.2 r) rs

/-- `attendanceSchema.statics.markClassAttendance` (`Attendence.js` lines
113-154): resolve the class (for its academic year), normalize the date to
the start of day, and apply the whole batch as upserts keyed by
`(studentId, date)`.  `bulkWrite` bypasses document middleware. -/
def attMarkClassAttendance (db : SchoolDB) (classId : Nat) (date : Nat)
    (records : List AttInput) (recordedBy : Nat) :
    SchoolDB × Except String Unit :=
  match findClass db.classes classId with
  | none => (db, .error "Class not found")
  | some c =>
    let nd := normalizeDate date
    let q := bulkUpsert classId c.academicYear recordedBy nd
      (db.atts, db.nextAttId) records
    ({ db with atts := q.1, nextAttId := q.2 }, .ok ())

/-- What `e.studentId.toString()` yields in the service's enrolled-set
scan: `Enrollment.findActiveByClass` (`User.js` lines 487-491) runs
`.populate('studentId')`, so `e.studentId` is the hydrated student
document, and Mongoose's `Document.prototype.toString` is the
`util.inspect` rendering of the whole document — an object literal opening
with a brace — never the bare hex id string the request carries. -/
def populatedStudentToString (sid : Nat) : String :=
  "\x7b _id: new ObjectId(" ++ toString sid ++ "), ... \x7d"

/-- `AttendanceService.markClassAttendance` (`attendanceService.js` lines
34-89): check the class belongs to the recorder's school, load the active
membership set via `findActiveByClass` — which populates `studentId`, so
`enrolledStudentIds` holds document-inspect strings, not ids — then reject
the whole batch, before writing anything, naming every record whose
request id is not among those strings; otherwise run the model-level bulk
upsert. -/
def svcMarkClassAttendance (db : SchoolDB) (classId : Nat) (date : Nat)
    (records : List AttInput) (recSchoolId recUserId : Nat) :
    SchoolDB × Except String Unit :=
  match db.classes.find?
      (fun c => c.classId == classId && c.schoolId == recSchoolId) with
  | none => (db, .error "Class not found")
  | some _ =>
    let enrolledStudentIds := (db.enrollments.filter
      (fun e => e.classId == classId && e.status == .active)).map
        (fun e => populatedStudentToString e.studentId)
    let invalidStudents := records.filter
      (fun r => !(enrolledStudentIds.contains (toString r.studentId)))
    if invalidStudents.length > 0 then
      (db, .error ("Students not enrolled in class: " ++
        String.intercalate ", "
          (invalidStudents.map (fun r => toString r.studentId))))
    else
      attMarkClassAttendance db classId date records recUserId

/-- `Nat.digitChar` never yields an opening brace. -/
lemma digitChar_ne_brace (m : Nat) : Nat.digitChar m ≠ '\x7b' := by
  by_cases h : m < 16
  · interval_cases m <;> decide
  · have hstar : Nat.digitChar m = '*' := by
      unfold Nat.digitChar
      repeat rw [if_neg (by omega)]
    rw [hstar]
    decide

lemma toDigitsCore_chars (b : Nat) :
    ∀ (fuel n : Nat) (ds : List Char) (c : Char),
      c ∈ Nat.toDigitsCore b fuel n ds →
      c ∈ ds ∨ ∃ m, c = Nat.digitChar m := by
  intro fuel
  induction fuel with
  | zero => intro n ds c hc; exact Or.inl hc
  | succ f ih =>
    intro n ds c hc
    unfold Nat.toDigitsCore at hc
    simp only [] at hc
    by_cases hz : n / b = 0
    · rw [if_pos hz] at hc
      rcases List.mem_cons.mp hc with h | h
      · exact Or.inr ⟨_, h⟩
      · exact Or.inl h
    · rw [if_neg hz] at hc
      rcases ih _ _ _ hc with h | h
      · rcases List.mem_cons.mp h with h1 | h1
        · exact Or.inr ⟨_, h1⟩
        · exact Or.inl h1
      · exact Or.inr h

lemma repr_char_digit (n : Nat) (c : Char) (hc : c ∈ (Nat.repr n).data) :
    ∃ m, c = Nat.digitChar m := by
  have hdata : (Nat.repr n).data = Nat.toDigitsCore 10 (n + 1) n [] := rfl
  rw [hdata] at hc
  rcases toDigitsCore_chars 10 (n + 1) n [] c hc with h | h
  · cases h
  · exact h

/-- The inspect rendering of a populated student document never equals a
bare id string: the one opens with a brace, the other holds only digit
characters. -/
lemma populatedStudentToString_ne_idString (sid rid : Nat) :
    populatedStudentToString sid ≠ toString rid := by
  intro h
  have hb : '\x7b' ∈ (populatedStudentToString sid).data := by
    have hdata : (populatedStudentToString sid).data =
        ("\x7b _id: new ObjectId(".data ++ (toString sid).data) ++
          "), ... \x7d".data := rfl
    rw [hdata]
    exact List.mem_append_left _ (List.mem_append_left _ (by decide))
  have ht : toString rid = Nat.repr rid := rfl
  have hb2 : '\x7b' ∈ (Nat.repr rid).data := by
    rw [← ht, ← h]
    exact hb
  obtain ⟨m, hm⟩ := repr_char_digit rid '\x7b' hb2
  exact digitChar_ne_brace m hm.symm

/-- C7 (code bug).  The service's enrolled-student validation is broken:
because `findActiveByClass` populates `studentId`, the enrolled set holds
document-inspect strings which never equal a request id, so EVERY record
of EVERY nonempty batch is flagged — the operation always fails, the error
names all submitted ids (not only the offenders), and a fully valid batch
cannot be marked at all.  Only the failure and the all-or-nothing part of
the claim survive: nothing is ever written. -/
theorem c7_service_validation_broken :
    ∀ (db : SchoolDB) (classId date : Nat) (records : List AttInput)
      (recSchoolId recUserId : Nat) (c : ClassDoc),
      db.classes.find?
          (fun cl => cl.classId == classId && cl.schoolId == recSchoolId) =
        some c →
      records ≠ [] →
      svcMarkClassAttendance db classId date records recSchoolId recUserId =
        (db, .error ("Students not enrolled in class: " ++
          String.intercalate ", "
            (records.map (fun r => toString r.studentId)))) := by
  intro db classId date records recSchoolId recUserId c hfind hne
  have hall : ∀ r ∈ records,
      (!(((db.enrollments.filter
          (fun e => e.classId == classId && e.status == .active)).map
            (fun e => populatedStudentToString e.studentId)).contains
        (toString r.studentId))) = true := by
    intro r _
    rw [Bool.not_eq_true']
    rw [Bool.eq_false_iff]
    intro hcon
    have hmem : toString r.studentId ∈ (db.enrollments.filter
        (fun e => e.classId == classId && e.status == .active)).map
          (fun e => populatedStudentToString e.studentId) :=
      List.elem_iff.mp hcon
    obtain ⟨e, _, heq⟩ := List.mem_map.mp hmem
    exact populatedStudentToString_ne_idString e.studentId r.studentId heq
  have hfilter : records.filter (fun r =>
      !(((db.enrollments.filter
          (fun e => e.classId == classId && e.status == .active)).map
            (fun e => populatedStudentToString e.studentId)).contains
        (toString r.studentId))) = records :=
    List.filter_eq_self.mpr hall
  have hlen : 0 < (records.filter (fun r =>
      !(((db.enrollments.filter
          (fun e => e.classId == classId && e.status == .active)).map
            (fun e => populatedStudentToString e.studentId)).contains
        (toString r.studentId)))).length := by
    rw [hfilter]
    exact List.length_pos.mpr hne
  simp only [svcMarkClassAttendance, hfind]
  rw [if_pos hlen, hfilter]

/-- A second active membership: student 11 in class 1. -/
def enrActiveS11 : Enrollment :=
  { enrActive with enrId := 3, studentId := 11 }

/-- A store where students 10 and 11 are active in class 1. -/
def dbTwoStudents : SchoolDB :=
  { dbWithActive with
    enrollments := [enrActive, enrActiveS11], nextEnrId := 4 }

/-- A batch marking students 10 and 11, plus unenrolled student 12. -/
def batchWithStranger : List AttInput :=
  [{ studentId := 10, status := .present, notes := none, arrivalTime := none },
   { studentId := 11, status := .absent, notes := some "Sick",
     arrivalTime := none },
   { studentId := 12, status := .present, notes := none, arrivalTime := none }]

/-- The two-student batch of the concrete scenario. -/
def batchTwoStudents : List AttInput :=
  [{ studentId := 10, status := .present, notes := none, arrivalTime := none },
   { studentId := 11, status := .absent, notes := some "Sick",
     arrivalTime := none }]

/-- C7 evaluation at the claim's failing input: the batch containing
unenrolled student 12 fails naming all three submitted ids, and even the
fully valid batch (students 10 and 11 only) fails the same way; nothing is
written in either case. -/
theorem c7_service_validation_broken_witness :
    svcMarkClassAttendance dbTwoStudents 1 86400123 batchWithStranger 1 7 =
      (dbTwoStudents, .error "Students not enrolled in class: 10, 11, 12") ∧
    svcMarkClassAttendance dbTwoStudents 1 86400123 batchTwoStudents 1 7 =
      (dbTwoStudents, .error "Students not enrolled in class: 10, 11") :=
  ⟨c7_service_validation_broken dbTwoStudents 1 86400123 batchWithStranger
      1 7 classA rfl (by decide),
    c7_service_validation_broken dbTwoStudents 1 86400123 batchTwoStudents
      1 7 classA rfl (by decide)⟩

/-! ### Single-record attendance correction -/

/-- The `updates` object handed to `updateAttendance`: any subset of
stored fields may be supplied, including the identity fields the guard
then ignores. -/
structure AttUpdates where
  studentId : Option Nat
  classId : Option Nat
  date : Option Nat
  status : Option AttendanceStatus
  notes : Option String
  arrivalTime : Option (Option String)
  recordedBy : Option Nat
  academicYear : Option String
  deriving DecidableEq, Repr

/-- The key-guarded copy loop of `updateAttendance`
(`attendanceService.js` lines 213-217): every supplied key except
`studentId`, `classId` and `date` overwrites the stored field; those three
are skipped even when supplied. -/
def applyAttUpdates (a : AttRec) (u : AttUpdates) : AttRec :=
  { a with
    status := u.status.getD a.status
    notes := u.notes.getD a.notes
    arrivalTime := u.arrivalTime.getD a.arrivalTime
    recordedBy := u.recordedBy.getD a.recordedBy
    academicYear := u.academicYear.getD a.academicYear }

/-- `AttendanceService.updateAttendance` (`attendanceService.js` lines
189-233): find the record, authorize via the record's class and the
updater's school, apply the guarded updates and save.  Of the save hooks,
date normalization fires only on a modified date (never here) and the
academic-year hook only on new documents. -/
def svcUpdateAttendance (db : SchoolDB) (attendanceId : Nat)
    (u : AttUpdates) (updSchoolId updUserId : Nat) :
    SchoolDB × Except String AttRec :=
  match db.atts.find? (fun a => a.attId == attendanceId) with
  | none => (db, .error "Attendance record not found")
  | some a =>
    match db.classes.find?
        (fun c => c.classId == a.classId && c.schoolId == updSchoolId) with
    | none => (db, .error "Unauthorized")
    | some _ =>
      let a2 := applyAttUpdates a u
      ({ db with
          atts := db.atts.map
            (fun x => if x.attId == attendanceId then a2 else x) },
        .ok a2)

/-- C10.  `updateAttendance` never changes the identity fields of the
stored record: whatever the updates object supplies, the saved record
keeps the original student id, class id, day (and document id), and only
status, notes, arrival time, recorder and academic year are overwritten
(each exactly when supplied). -/
theorem c10_update_preserves_identity :
    ∀ (db : SchoolDB) (attendanceId : Nat) (u : AttUpdates)
      (updSchoolId updUserId : Nat) (a : AttRec),
      db.atts.find? (fun x => x.attId == attendanceId) = some a →
      db.classes.find?
          (fun c => c.classId == a.classId && c.schoolId == updSchoolId) ≠
        none →
      ∃ j : AttRec,
        svcUpdateAttendance db attendanceId u updSchoolId updUserId =
          ({ db with
              atts := db.atts.map
                (fun x => if x.attId == attendanceId then j else x) },
            .ok j) ∧
        j.studentId = a.studentId ∧ j.classId = a.classId ∧
        j.date = a.date ∧ j.attId = a.attId ∧
        j.status = u.status.getD a.status ∧
        j.notes = u.notes.getD a.notes ∧
        j.arrivalTime = u.arrivalTime.getD a.arrivalTime ∧
        j.recordedBy = u.recordedBy.getD a.recordedBy ∧
        j.academicYear = u.academicYear.getD a.academicYear := by
  intro db attendanceId u updSchoolId updUserId a hfind hauth
  cases hc : db.classes.find?
      (fun c => c.classId == a.classId && c.schoolId == updSchoolId) with
  | none => exact absurd hc hauth
  | some cl =>
    refine ⟨applyAttUpdates a u, ?_, rfl, rfl, rfl, rfl, rfl, rfl, rfl, rfl, rfl⟩
    simp only [svcUpdateAttendance, hfind, hc]

/-- A stored attendance record for student 10 in class 1. -/
def attRecOne : AttRec :=
  { attId := 1, studentId := 10, classId := 1, date := 86400000,
    status := .present, arrivalTime := none, notes := "",
    recordedBy := 7, academicYear := "2025" }

/-- A store holding `attRecOne`. -/
def dbWithAtt : SchoolDB :=
  { dbWithActive with atts := [attRecOne], nextAttId := 2 }

/-- An updates object that tries to move the record to another student,
class and day while also correcting the status and notes. -/
def updatesSneaky : AttUpdates :=
  { studentId := some 999, classId := some 999, date := some 123,
    status := some .late, notes := some "corrected",
    arrivalTime := some (some "09:15"), recordedBy := none,
    academicYear := none }

/-- C10 witness: the concrete correction overwrites status, notes and
arrival time but leaves student 10, class 1 and the stored day intact. -/
theorem c10_update_preserves_identity_witness :
    ∃ j : AttRec,
      svcUpdateAttendance dbWithAtt 1 updatesSneaky 1 7 =
        ({ dbWithAtt with
            atts := dbWithAtt.atts.map
              (fun x => if x.attId == 1 then j else x) },
          .ok j) ∧
      j.studentId = attRecOne.studentId ∧ j.classId = attRecOne.classId ∧
      j.date = attRecOne.date ∧ j.attId = attRecOne.attId ∧
      j.status = updatesSneaky.status.getD attRecOne.status ∧
      j.notes = updatesSneaky.notes.getD attRecOne.notes ∧
      j.arrivalTime = updatesSneaky.arrivalTime.getD attRecOne.arrivalTime ∧
      j.recordedBy = updatesSneaky.recordedBy.getD attRecOne.recordedBy ∧
      j.academicYear = updatesSneaky.academicYear.getD attRecOne.academicYear :=
  c10_update_preserves_identity dbWithAtt 1 updatesSneaky 1 7 attRecOne
    rfl (by decide)

/-! ### Idempotence of the attendance bulk upsert -/

/-- The storage uniqueness key of `Attendence.js` lines 94-97:
`(studentId, date)`. -/
def attKey (a : AttRec) : Nat × Nat := (a.studentId, a.date)

/-- The last input record of a batch addressed to a student — the one
whose `$set` wins under the ordered bulk write. -/
def lastFor (rs : List AttInput) (sid : Nat) : Option AttInput :=
  match rs with
  | [] => none
  | r :: rest =>
    match lastFor rest sid with
    | some x => some x
    | none => if r.studentId == sid then some r else none

/-- The net effect of a whole batch on one stored record. -/
def applyLast (classId : Nat) (year : String) (recordedBy : Nat) (nd : Nat)
    (rs : List AttInput) (a : AttRec) : AttRec :=
  if a.date == nd then
    match lastFor rs a.studentId with
    | some r => setAttFields classId year recordedBy r a
    | none => a
  else a

lemma setAttFields_key (classId : Nat) (year : String) (recordedBy : Nat)
    (r : AttInput) (a : AttRec) :
    attKey (setAttFields classId year recordedBy r a) = attKey a := rfl

lemma setAttFields_setAttFields (classId : Nat) (year : String)
    (recordedBy : Nat) (r x : AttInput) (a : AttRec) :
    setAttFields classId year recordedBy x
        (setAttFields classId year recordedBy r a) =
      setAttFields classId year recordedBy x a := rfl

lemma upsert_cond_iff (r : AttInput) (nd : Nat) (a : AttRec) :
    (a.studentId == r.studentId && a.date == nd) = true ↔
      attKey a = (r.studentId, nd) := by
  simp [attKey, Bool.and_eq_true, beq_iff_eq, Prod.ext_iff]

lemma upsertOne_keys (classId : Nat) (year : String) (recordedBy : Nat)
    (nd : Nat) (r : AttInput) :
    ∀ (recs : List AttRec) (n : Nat),
      (upsertOne classId year recordedBy nd recs n r).1.map attKey =
        if (r.studentId, nd) ∈ recs.map attKey then recs.map attKey
        else recs.map attKey ++ [(r.studentId, nd)] := by
  intro recs
  induction recs with
  | nil =>
    intro n
    simp [upsertOne, attKey, setAttFields]
  | cons a rest ih =>
    intro n
    by_cases hc : (a.studentId == r.studentId && a.date == nd) = true
    · have hk : attKey a = (r.studentId, nd) := (upsert_cond_iff r nd a).mp hc
      simp [upsertOne, hc, setAttFields_key, hk]
    · have hk : attKey a ≠ (r.studentId, nd) := fun hx =>
        hc ((upsert_cond_iff r nd a).mpr hx)
      have hstep : upsertOne classId year recordedBy nd (a :: rest) n r =
          (a :: (upsertOne classId year recordedBy nd rest n r).1,
            (upsertOne classId year recordedBy nd rest n r).2) := by
        simp [upsertOne, hc]
      rw [hstep]
      simp only [List.map_cons]
      rw [ih n]
      have hne : ((r.studentId, nd) ∈ attKey a :: rest.map attKey) ↔
          ((r.studentId, nd) ∈ rest.map attKey) := by
        simp [List.mem_cons, Ne.symm hk]
      by_cases hm : (r.studentId, nd) ∈ rest.map attKey
      · rw [if_pos hm, if_pos (hne.mpr hm)]
      · rw [if_neg hm, if_neg (fun hx => hm (hne.mp hx))]
        rfl

lemma upsertOne_nodup (classId : Nat) (year : String) (recordedBy : Nat)
    (nd : Nat) (r : AttInput) (recs : List AttRec) (n : Nat)
    (h : (recs.map attKey).Nodup) :
    ((upsertOne classId year recordedBy nd recs n r).1.map attKey).Nodup := by
  rw [upsertOne_keys]
  split_ifs with hm
  · exact h
  · simp [List.nodup_append, h, hm]

lemma upsertOne_key_mem (classId : Nat) (year : String) (recordedBy : Nat)
    (nd : Nat) (r : AttInput) (recs : List AttRec) (n : Nat) :
    (r.studentId, nd) ∈
      (upsertOne classId year recordedBy nd recs n r).1.map attKey := by
  rw [upsertOne_keys]
  split_ifs with hm
  · exact hm
  · simp

lemma upsertOne_mono (classId : Nat) (year : String) (recordedBy : Nat)
    (nd : Nat) (r : AttInput) (recs : List AttRec) (n : Nat)
    (k : Nat × Nat) (h : k ∈ recs.map attKey) :
    k ∈ (upsertOne classId year recordedBy nd recs n r).1.map attKey := by
  rw [upsertOne_keys]
  split_ifs with hm
  · exact h
  · simp [h]

lemma upsertOne_update_in_place (classId : Nat) (year : String)
    (recordedBy : Nat) (nd : Nat) (r : AttInput) :
    ∀ (recs : List AttRec) (n : Nat),
      (recs.map attKey).Nodup →
      (r.studentId, nd) ∈ recs.map attKey →
      upsertOne classId year recordedBy nd recs n r =
        (recs.map (fun a =>
          if a.studentId == r.studentId && a.date == nd then
            setAttFields classId year recordedBy r a
          else a), n) := by
  intro recs
  induction recs with
  | nil => intro n _ hm; simp at hm
  | cons a rest ih =>
    intro n hnd hm
    rw [List.map_cons, List.nodup_cons] at hnd
    by_cases hc : (a.studentId == r.studentId && a.date == nd) = true
    · have hk : attKey a = (r.studentId, nd) := (upsert_cond_iff r nd a).mp hc
      have hrest : ∀ b ∈ rest,
          (if b.studentId == r.studentId && b.date == nd then
            setAttFields classId year recordedBy r b else b) = id b := by
        intro b hb
        have hbk : (b.studentId == r.studentId && b.date == nd) = false := by
          rw [← Bool.not_eq_true]
          intro hx
          have hmem : attKey b ∈ rest.map attKey :=
            List.mem_map_of_mem attKey hb
          rw [(upsert_cond_iff r nd b).mp hx, ← hk] at hmem
          exact hnd.1 hmem
        simp [hbk]
      have h2 : rest.map (fun b =>
          if b.studentId == r.studentId && b.date == nd then
            setAttFields classId year recordedBy r b else b) = rest.map id :=
        List.map_congr_left hrest
      simp only [upsertOne, hc, if_true, List.map_cons, h2, List.map_id]
    · have hm2 : (r.studentId, nd) ∈ rest.map attKey := by
        have hk : attKey a ≠ (r.studentId, nd) := fun hx =>
          hc ((upsert_cond_iff r nd a).mpr hx)
        rw [List.map_cons] at hm
        rcases List.mem_cons.mp hm with h1 | h1
        · exact absurd h1.symm hk
        · exact h1
      have hstep : upsertOne classId year recordedBy nd (a :: rest) n r =
          (a :: (upsertOne classId year recordedBy nd rest n r).1,
            (upsertOne classId year recordedBy nd rest n r).2) := by
        simp [upsertOne, hc]
      rw [hstep, ih n hnd.2 hm2]
      have hnc : ¬(a.studentId = r.studentId ∧ a.date = nd) := by
        intro hx
        exact hc (by simp [hx.1, hx.2])
      simp [hc, hnc]

lemma applyLast_nil (classId : Nat) (year : String) (recordedBy nd : Nat)
    (a : AttRec) : applyLast classId year recordedBy nd [] a = a := by
  unfold applyLast
  split <;> rfl

lemma lastFor_append (rs1 rs2 : List AttInput) (sid : Nat) :
    lastFor (rs1 ++ rs2) sid =
      match lastFor rs2 sid with
      | some x => some x
      | none => lastFor rs1 sid := by
  induction rs1 with
  | nil =>
    simp only [List.nil_append]
    cases lastFor rs2 sid <;> rfl
  | cons r rs ih =>
    simp only [List.cons_append]
    have hstep : lastFor (r :: (rs ++ rs2)) sid =
        (match lastFor (rs ++ rs2) sid with
         | some x => some x
         | none => if r.studentId == sid then some r else none) := rfl
    rw [hstep, ih]
    cases lastFor rs2 sid <;> rfl

lemma bulkUpsert_append (classId : Nat) (year : String) (recordedBy nd : Nat) :
    ∀ (rs1 rs2 : List AttInput) (q : List AttRec × Nat),
      bulkUpsert classId year recordedBy nd q (rs1 ++ rs2) =
        bulkUpsert classId year recordedBy nd
          (bulkUpsert classId year recordedBy nd q rs1) rs2 := by
  intro rs1
  induction rs1 with
  | nil => intro rs2 q; rfl
  | cons r rs ih =>
    intro rs2 q
    simp only [List.cons_append, bulkUpsert]
    exact ih _ _

lemma bulkUpsert_mono (classId : Nat) (year : String) (recordedBy nd : Nat) :
    ∀ (rs : List AttInput) (q : List AttRec × Nat) (k : Nat × Nat),
      k ∈ q.1.map attKey →
      k ∈ (bulkUpsert classId year recordedBy nd q rs).1.map attKey := by
  intro rs
  induction rs with
  | nil => intro q k h; exact h
  | cons r rs ih =>
    intro q k h
    simp only [bulkUpsert]
    exact ih _ k (upsertOne_mono classId year recordedBy nd r q.1 q.2 k h)

lemma bulkUpsert_nodup (classId : Nat) (year : String) (recordedBy nd : Nat) :
    ∀ (rs : List AttInput) (q : List AttRec × Nat),
      (q.1.map attKey).Nodup →
      ((bulkUpsert classId year recordedBy nd q rs).1.map attKey).Nodup := by
  intro rs
  induction rs with
  | nil => intro q h; exact h
  | cons r rs ih =>
    intro q h
    simp only [bulkUpsert]
    exact ih _ (upsertOne_nodup classId year recordedBy nd r q.1 q.2 h)

lemma bulkUpsert_keys_present (classId : Nat) (year : String)
    (recordedBy nd : Nat) :
    ∀ (rs : List AttInput) (q : List AttRec × Nat) (r0 : AttInput),
      r0 ∈ rs →
      (r0.studentId, nd) ∈
        (bulkUpsert classId year recordedBy nd q rs).1.map attKey := by
  intro rs
  induction rs with
  | nil => intro q r0 h; simp at h
  | cons r rs ih =>
    intro q r0 h
    rcases List.mem_cons.mp h with h1 | h1
    · subst h1
      simp only [bulkUpsert]
      exact bulkUpsert_mono classId year recordedBy nd rs _ _
        (upsertOne_key_mem classId year recordedBy nd r0 q.1 q.2)
    · simp only [bulkUpsert]
      exact ih _ r0 h1

lemma applyLast_cons_pointwise (classId : Nat) (year : String)
    (recordedBy nd : Nat) (r : AttInput) (rs : List AttInput) (a : AttRec) :
    applyLast classId year recordedBy nd rs
        (if a.studentId == r.studentId && a.date == nd then
          setAttFields classId year recordedBy r a
        else a) =
      applyLast classId year recordedBy nd (r :: rs) a := by
  by_cases hdate : (a.date == nd) = true
  · by_cases hsid : (a.studentId == r.studentId) = true
    · have hcond : (a.studentId == r.studentId && a.date == nd) = true := by
        simp [hsid, hdate]
      have hrsid : (r.studentId == a.studentId) = true := by
        rw [beq_iff_eq] at hsid ⊢
        exact hsid.symm
      rw [if_pos hcond]
      unfold applyLast
      simp only [setAttFields, hdate, if_true, lastFor]
      cases lastFor rs a.studentId with
      | none => simp [hrsid, setAttFields]
      | some x => simp [setAttFields]
    · have hsid2 : a.studentId ≠ r.studentId := fun hx =>
        hsid (beq_iff_eq.mpr hx)
      have hcond : (a.studentId == r.studentId && a.date == nd) = false := by
        simp [hsid]
      have hrsid : (r.studentId == a.studentId) = false :=
        beq_eq_false_iff_ne.mpr (fun hx => hsid2 hx.symm)
      simp only [hcond, Bool.false_eq_true, if_false]
      unfold applyLast
      simp only [hdate, if_true, lastFor]
      cases lastFor rs a.studentId with
      | none => simp [hrsid]
      | some x => simp
  · have hcond : (a.studentId == r.studentId && a.date == nd) = false := by
      simp [hdate]
    simp only [hcond, Bool.false_eq_true, if_false]
    unfold applyLast
    simp [hdate]

lemma attKey_after_set (classId : Nat) (year : String) (recordedBy nd : Nat)
    (r : AttInput) (a : AttRec) :
    attKey (if a.studentId == r.studentId && a.date == nd then
      setAttFields classId year recordedBy r a else a) = attKey a := by
  split_ifs <;> rfl

lemma bulkUpsert_no_insert (classId : Nat) (year : String)
    (recordedBy nd : Nat) :
    ∀ (rs : List AttInput) (recs : List AttRec) (n : Nat),
      (recs.map attKey).Nodup →
      (∀ r ∈ rs, (r.studentId, nd) ∈ recs.map attKey) →
      bulkUpsert classId year recordedBy nd (recs, n) rs =
        (recs.map (applyLast classId year recordedBy nd rs), n) := by
  intro rs
  induction rs with
  | nil =>
    intro recs n hnd _
    have hid : ∀ a ∈ recs,
        applyLast classId year recordedBy nd [] a = id a := by
      intro a _
      exact applyLast_nil classId year recordedBy nd a
    have h2 : recs.map (applyLast classId year recordedBy nd []) =
        recs.map id := List.map_congr_left hid
    simp only [bulkUpsert, h2, List.map_id]
  | cons r rs ih =>
    intro recs n hnd hall
    simp only [bulkUpsert]
    rw [upsertOne_update_in_place classId year recordedBy nd r recs n hnd
      (hall r (List.mem_cons_self r rs))]
    have hkeys : (recs.map (fun a =>
        if a.studentId == r.studentId && a.date == nd then
          setAttFields classId year recordedBy r a
        else a)).map attKey = recs.map attKey := by
      rw [List.map_map]
      exact List.map_congr_left (fun a _ =>
        attKey_after_set classId year recordedBy nd r a)
    have hnd2 : ((recs.map (fun a =>
        if a.studentId == r.studentId && a.date == nd then
          setAttFields classId year recordedBy r a
        else a)).map attKey).Nodup := by
      rw [hkeys]; exact hnd
    have hall2 : ∀ r2 ∈ rs, (r2.studentId, nd) ∈ (recs.map (fun a =>
        if a.studentId == r.studentId && a.date == nd then
          setAttFields classId year recordedBy r a
        else a)).map attKey := by
      intro r2 h2
      rw [hkeys]
      exact hall r2 (List.mem_cons_of_mem r h2)
    rw [ih _ n hnd2 hall2, List.map_map]
    refine congrArg (fun l => (l, n)) ?_
    refine List.map_congr_left ?_
    intro a _
    exact applyLast_cons_pointwise classId year recordedBy nd r rs a

lemma upsertOne_mem (classId : Nat) (year : String) (recordedBy nd : Nat)
    (r : AttInput) :
    ∀ (recs : List AttRec) (n : Nat),
      (recs.map attKey).Nodup →
      ∀ a ∈ (upsertOne classId year recordedBy nd recs n r).1,
        (∃ b : AttRec, a = setAttFields classId year recordedBy r b ∧
          b.studentId = r.studentId ∧ b.date = nd) ∨
        (a ∈ recs ∧ attKey a ≠ (r.studentId, nd)) := by
  intro recs
  induction recs with
  | nil =>
    intro n _ a ha
    simp only [upsertOne, List.mem_singleton] at ha
    subst ha
    exact Or.inl ⟨_, rfl, rfl, rfl⟩
  | cons x rest ih =>
    intro n hnd a ha
    rw [List.map_cons, List.nodup_cons] at hnd
    by_cases hc : (x.studentId == r.studentId && x.date == nd) = true
    · have hk : attKey x = (r.studentId, nd) := (upsert_cond_iff r nd x).mp hc
      simp only [upsertOne, hc, if_true, List.mem_cons] at ha
      rcases ha with ha | ha
      · obtain ⟨hxs, hxd⟩ : x.studentId = r.studentId ∧ x.date = nd := by
          have := (upsert_cond_iff r nd x).mp hc
          simpa [attKey, Prod.ext_iff] using this
        exact Or.inl ⟨x, ha, hxs, hxd⟩
      · refine Or.inr ⟨List.mem_cons_of_mem x ha, ?_⟩
        intro hx
        exact hnd.1 (hk ▸ hx ▸ List.mem_map_of_mem attKey ha)
    · have hstep : upsertOne classId year recordedBy nd (x :: rest) n r =
          (x :: (upsertOne classId year recordedBy nd rest n r).1,
            (upsertOne classId year recordedBy nd rest n r).2) := by
        simp [upsertOne, hc]
      rw [hstep] at ha
      rcases List.mem_cons.mp ha with ha | ha
      · subst ha
        refine Or.inr ⟨List.mem_cons_self a rest, fun hx =>
          hc ((upsert_cond_iff r nd a).mpr hx)⟩
      · rcases ih n hnd.2 a ha with h | ⟨h1, h2⟩
        · exact Or.inl h
        · exact Or.inr ⟨List.mem_cons_of_mem x h1, h2⟩

lemma bulkUpsert_stable (classId : Nat) (year : String) (recordedBy nd : Nat)
    (rs : List AttInput) :
    ∀ (recs : List AttRec) (n : Nat),
      (recs.map attKey).Nodup →
      ∀ a ∈ (bulkUpsert classId year recordedBy nd (recs, n) rs).1,
        applyLast classId year recordedBy nd rs a = a := by
  induction rs using List.reverseRecOn with
  | nil =>
    intro recs n _ a _
    exact applyLast_nil classId year recordedBy nd a
  | append_singleton rs r ih =>
    intro recs n hnd a ha
    rw [bulkUpsert_append] at ha
    have hq : bulkUpsert classId year recordedBy nd
        (bulkUpsert classId year recordedBy nd (recs, n) rs) [r] =
          upsertOne classId year recordedBy nd
            (bulkUpsert classId year recordedBy nd (recs, n) rs).1
            (bulkUpsert classId year recordedBy nd (recs, n) rs).2 r := rfl
    rw [hq] at ha
    have hnd1 : (((bulkUpsert classId year recordedBy nd (recs, n) rs).1).map
        attKey).Nodup :=
      bulkUpsert_nodup classId year recordedBy nd rs (recs, n) hnd
    rcases upsertOne_mem classId year recordedBy nd r _ _ hnd1 a ha with
      ⟨b, hab, hbs, hbd⟩ | ⟨hin, hkne⟩
    · subst hab
      have hdate : ((setAttFields classId year recordedBy r b).date == nd) =
          true := by
        simp [setAttFields, hbd]
      unfold applyLast
      rw [if_pos hdate]
      have hlast : lastFor (rs ++ [r])
          (setAttFields classId year recordedBy r b).studentId = some r := by
        rw [lastFor_append]
        have h1 : lastFor [r]
            (setAttFields classId year recordedBy r b).studentId = some r := by
          have : (r.studentId ==
              (setAttFields classId year recordedBy r b).studentId) = true :=
            beq_iff_eq.mpr (by
              show r.studentId = b.studentId
              exact hbs.symm)
          simp [lastFor, this]
        rw [h1]
      rw [hlast]
      exact setAttFields_setAttFields classId year recordedBy r r b
    · have hstab := ih recs n hnd a hin
      by_cases hdate : (a.date == nd) = true
      · have hsid : (r.studentId == a.studentId) = false := by
          refine beq_eq_false_iff_ne.mpr ?_
          intro hx
          apply hkne
          have hd : a.date = nd := beq_iff_eq.mp hdate
          rw [attKey, hx, hd]
        unfold applyLast
        rw [if_pos hdate]
        have hlast : lastFor (rs ++ [r]) a.studentId =
            lastFor rs a.studentId := by
          rw [lastFor_append]
          simp [lastFor, hsid]
        rw [hlast]
        unfold applyLast at hstab
        rw [if_pos hdate] at hstab
        exact hstab
      · unfold applyLast
        rw [if_neg hdate]

/-- C8.  The bulk attendance write is idempotent and duplicate-free: under
the storage uniqueness invariant on `(studentId, date)`, running the same
`markClassAttendance` batch twice (same class, same day) leaves exactly
the state of running it once, and one run preserves the uniqueness
invariant — no second record for the same (student, day) is ever
created. -/
theorem c8_mark_attendance_idempotent :
    ∀ (db : SchoolDB) (classId date : Nat) (records : List AttInput)
      (recordedBy : Nat),
      (db.atts.map attKey).Nodup →
      (attMarkClassAttendance
          (attMarkClassAttendance db classId date records recordedBy).1
          classId date records recordedBy).1 =
        (attMarkClassAttendance db classId date records recordedBy).1 ∧
      (((attMarkClassAttendance db classId date records
          recordedBy).1.atts.map attKey)).Nodup := by
  intro db classId date records recordedBy hnd
  cases hfc : findClass db.classes classId with
  | none =>
    constructor
    · simp [attMarkClassAttendance, hfc]
    · simp only [attMarkClassAttendance, hfc]
      exact hnd
  | some c =>
    have hfirst : attMarkClassAttendance db classId date records recordedBy =
        ({ db with
            atts := (bulkUpsert classId c.academicYear recordedBy
              (normalizeDate date) (db.atts, db.nextAttId) records).1,
            nextAttId := (bulkUpsert classId c.academicYear recordedBy
              (normalizeDate date) (db.atts, db.nextAttId) records).2 },
          .ok ()) := by
      simp [attMarkClassAttendance, hfc]
    have hnd1 : (((bulkUpsert classId c.academicYear recordedBy
        (normalizeDate date) (db.atts, db.nextAttId) records).1).map
          attKey).Nodup :=
      bulkUpsert_nodup classId c.academicYear recordedBy (normalizeDate date)
        records (db.atts, db.nextAttId) hnd
    refine ⟨?_, by rw [hfirst]; exact hnd1⟩
    rw [hfirst]
    have hkeys : ∀ r ∈ records, (r.studentId, normalizeDate date) ∈
        ((bulkUpsert classId c.academicYear recordedBy (normalizeDate date)
          (db.atts, db.nextAttId) records).1).map attKey := by
      intro r hr
      exact bulkUpsert_keys_present classId c.academicYear recordedBy
        (normalizeDate date) records (db.atts, db.nextAttId) r hr
    have hstable : ∀ a ∈ (bulkUpsert classId c.academicYear recordedBy
        (normalizeDate date) (db.atts, db.nextAttId) records).1,
        applyLast classId c.academicYear recordedBy (normalizeDate date)
          records a = id a := by
      intro a ha
      exact bulkUpsert_stable classId c.academicYear recordedBy
        (normalizeDate date) records db.atts db.nextAttId hnd a ha
    have hsecond : bulkUpsert classId c.academicYear recordedBy
        (normalizeDate date)
        ((bulkUpsert classId c.academicYear recordedBy (normalizeDate date)
          (db.atts, db.nextAttId) records).1,
         (bulkUpsert classId c.academicYear recordedBy (normalizeDate date)
          (db.atts, db.nextAttId) records).2) records =
        ((bulkUpsert classId c.academicYear recordedBy (normalizeDate date)
          (db.atts, db.nextAttId) records).1,
         (bulkUpsert classId c.academicYear recordedBy (normalizeDate date)
          (db.atts, db.nextAttId) records).2) := by
      rw [bulkUpsert_no_insert classId c.academicYear recordedBy
        (normalizeDate date) records _ _ hnd1 hkeys]
      rw [List.map_congr_left hstable, List.map_id]
    simp [attMarkClassAttendance, hfc, hsecond]

/-- C8 witness: replaying the concrete two-student batch over the concrete
store keeps the state of the first run, which satisfies the uniqueness
invariant. -/
theorem c8_mark_attendance_idempotent_witness :
    (attMarkClassAttendance
        (attMarkClassAttendance dbTwoStudents 1 86400123 batchTwoStudents 7).1
        1 86400123 batchTwoStudents 7).1 =
      (attMarkClassAttendance dbTwoStudents 1 86400123 batchTwoStudents 7).1 ∧
    (((attMarkClassAttendance dbTwoStudents 1 86400123 batchTwoStudents
        7).1.atts.map attKey)).Nodup :=
  c8_mark_attendance_idempotent dbTwoStudents 1 86400123 batchTwoStudents 7
    (by decide)
